import Mathlib

/-!
Verification of the PDF2Foundry content segmentation and classification engine.

The JavaScript sources are shallowly embedded over `List Char`: each JS string
operation and each concrete regular expression used by the code is translated
into an executable Lean function that follows the JS semantics (leftmost match,
greedy quantifiers with backtracking, `exec` resuming from `lastIndex`).
-/

set_option maxRecDepth 8000

namespace PDF2Foundry

/-- Characters of a string literal. -/
def lit (s : String) : List Char := s.toList

/-- JS `\w` character class (ASCII word character: letter, digit or underscore). -/
def isWordChar (c : Char) : Bool := c.isAlpha || c.isDigit || c == '_'

/-- JS `\s` character class restricted to the ASCII whitespace characters
(space, tab, newline, carriage return, vertical tab, form feed). -/
def isSpaceJS (c : Char) : Bool :=
  c == ' ' || c == '\t' || c == '\n' || c == '\r' || c == '\x0B' || c == '\x0C'

/-- JS `[\w\s]` character class. -/
def isWordOrSpace (c : Char) : Bool := isWordChar c || isSpaceJS c

/-- JS `String.prototype.startsWith`. -/
def strStarts (pat cs : List Char) : Bool := cs.take pat.length == pat

/-- JS `String.prototype.includes` (substring containment). -/
def strHas (pat : List Char) : List Char → Bool
  | [] => strStarts pat []
  | c :: cs => strStarts pat (c :: cs) || strHas pat cs

/-- JS `String.prototype.endsWith`. -/
def strEnds (pat cs : List Char) : Bool :=
  decide (pat.length ≤ cs.length) && (cs.drop (cs.length - pat.length) == pat)

/-- JS `String.prototype.trim` (drop whitespace from both ends). -/
def trimJS (cs : List Char) : List Char :=
  ((cs.dropWhile isSpaceJS).reverse.dropWhile isSpaceJS).reverse

/-- JS `String.prototype.toLowerCase` (ASCII case only, which is all the code needs). -/
def toLowerJS (cs : List Char) : List Char := cs.map Char.toLower

/-- Numeric value of a list of decimal digit characters. -/
def natOfDigits (ds : List Char) : Nat :=
  ds.foldl (fun a c => a * 10 + (c.toNat - 48)) 0

/-- JS `parseInt` on a string: skip leading whitespace, optional sign, then a
maximal run of decimal digits.  `none` models the JS result `NaN` (no digits).
`parseInt` never throws an exception. -/
def jsParseInt (cs : List Char) : Option Int :=
  let t := cs.dropWhile isSpaceJS
  let signed : Int × List Char :=
    match t with
    | '-' :: r => (-1, r)
    | '+' :: r => (1, r)
    | r => (1, r)
  let ds := signed.2.takeWhile Char.isDigit
  if ds = [] then none else some (signed.1 * (natOfDigits ds : Int))

/-- Leftmost-match search: the first position `i` at or after the start index at
which the position matcher `f` succeeds, together with `f`'s result.  The fuel
argument bounds the number of positions tried, mirroring a JS regex scan over
the finitely many positions of a string. -/
def scanFirst {α : Type} (f : Nat → Option α) : Nat → Nat → Option (Nat × α)
  | 0, _ => none
  | fuel + 1, i =>
    match f i with
    | some a => some (i, a)
    | none => scanFirst f fuel (i + 1)

/-- JS `String.prototype.indexOf(pat, start)` for a non-empty pattern. -/
def indexOfFrom (pat cs : List Char) (start : Nat) : Option Nat :=
  (scanFirst (fun i => if strStarts pat (cs.drop i) then some () else none)
      (cs.length + 1 - start) start).map Prod.fst

/-- JS `String.prototype.substring(s, e)` for `s ≤ e` (both clamped to the length). -/
def jsSubstring (cs : List Char) (s e : Nat) : List Char := (cs.take e).drop s

/-- Index of the last occurrence of `c` in `l`, if any. -/
def lastIdxOf (c : Char) (l : List Char) : Option Nat :=
  (l.reverse.findIdx? (· == c)).map (fun j => l.length - 1 - j)

/-!
## Trait extractor (src/scripts/content-extractors.js, `TraitExtractor`)

Locator regex: `/Trait: ([\w\s]+)\n/g`.  A JS match at position `i` consists of
the literal `"Trait: "`, then the greedy capture `[\w\s]+` which backtracks
until the next character is a newline: the capture therefore ends just before
the last `'\n'` inside the maximal `[\w\s]` run following the literal, and must
be non-empty.
-/

/-- One attempt of the trait locator regex at position `i`; returns the end
offset of the whole match (one past the matched `'\n'`) on success. -/
def matchTraitAt (cs : List Char) (i : Nat) : Option Nat :=
  if strStarts (lit "Trait: ") (cs.drop i) then
    match lastIdxOf '\n' ((cs.drop (i + 7)).takeWhile isWordOrSpace) with
    | some k => if 1 ≤ k then some (i + 7 + k + 1) else none
    | none => none
  else none

/-- `regex.exec` from `lastIndex = pos`: leftmost trait match at or after `pos`,
as `(match index, match end)`. -/
def findTraitFrom (cs : List Char) (pos : Nat) : Option (Nat × Nat) :=
  scanFirst (matchTraitAt cs) (cs.length + 1 - pos) pos

/-- Block end used by `_findTraitBlocks`: `text.indexOf('\n\n', startPos + 50)`,
falling back to `startPos + 500` when there is no double newline. -/
def traitBlockEnd (cs : List Char) (s : Nat) : Nat :=
  match indexOfFrom (lit "\n\n") cs (s + 50) with
  | some j => j
  | none => s + 500

/-- The `while ((match = pattern.exec(text)) !== null)` loop of
`_findTraitBlocks`, recorded as `(startPos, endPos)` spans.  After emitting a
block the scan resumes from the regex `lastIndex` (the end of the start match),
exactly as `RegExp.exec` with the `g` flag does. -/
def traitBlocksLoop (cs : List Char) : Nat → Nat → List (Nat × Nat)
  | 0, _ => []
  | fuel + 1, pos =>
    match findTraitFrom cs pos with
    | none => []
    | some (s, e) => (s, traitBlockEnd cs s) :: traitBlocksLoop cs fuel e

/-- The `(startPos, endPos)` spans produced by one pass of `_findTraitBlocks`. -/
def traitBlockSpans (cs : List Char) : List (Nat × Nat) :=
  traitBlocksLoop cs (cs.length + 1) 0

/-- `TraitExtractor._findTraitBlocks`: the list of block substrings. -/
def findTraitBlocks (cs : List Char) : List (List Char) :=
  (traitBlockSpans cs).map fun p => jsSubstring cs p.1 p.2

/-- The candidate-block spans are pairwise disjoint (each block ends no later
than the next one starts).  This is the non-overlap property claimed for the
Block Locator. -/
def spansDisjoint (l : List (Nat × Nat)) : Prop :=
  l.Pairwise fun a b => a.2 ≤ b.1

/-- Structured record built by `TraitExtractor._parseTraitBlock`.  The run-time
`source` (PDF file name) and the freshly generated `identifier` are omitted;
all other fields are kept. -/
structure TraitRecord where
  name : List Char
  itemType : String := "feat"
  img : String := "icons/svg/trait.svg"
  description : List Char
  requirements : List Char := []
deriving Repr, DecidableEq

/-- `lines[0].match(/Trait: ([\w\s]+)/)`: leftmost occurrence of the literal
`"Trait: "` followed by a non-empty greedy `[\w\s]+` capture. -/
def traitNameMatch (line : List Char) : Option (List Char) :=
  (scanFirst (fun i =>
      if strStarts (lit "Trait: ") (line.drop i) then
        let run := (line.drop (i + 7)).takeWhile isWordOrSpace
        if run = [] then none else some run
      else none) (line.length + 1) 0).map Prod.snd

/-- `TraitExtractor._parseTraitBlock`: reject blocks of fewer than two lines,
otherwise emit a record whose name is the trimmed capture of the name pattern,
or the placeholder `'Unknown Trait'` when the pattern does not match. -/
def parseTraitBlock (block : List Char) : Option TraitRecord :=
  let lines := block.splitOn '\n'
  if lines.length < 2 then none
  else
    let name :=
      match traitNameMatch (lines.headD []) with
      | some cap => trimJS cap
      | none => lit "Unknown Trait"
    some { name := name, description := block }

/-- The record-producing core of `TraitExtractor.extractTraits`: locate blocks,
parse each, keep the records that are emitted. -/
def extractTraitRecords (cs : List Char) : List TraitRecord :=
  (findTraitBlocks cs).filterMap parseTraitBlock

/-- Concrete input for the locator-overlap analysis: two trait headers nine
characters apart, with the first double newline far beyond both. -/
def c1Text : List Char :=
  lit "Trait: A\nTrait: B\n" ++ List.replicate 50 'x' ++ lit "\n\n"

/-- Concrete input whose single trait block has an unmatchable first line
`"Trait: "` (the capture would have to be empty). -/
def c2Text : List Char := lit "Trait: \nabc\ndef"

/-- A name has no leading and no trailing whitespace. -/
def noOuterSpace (l : List Char) : Prop :=
  (∀ c, l.head? = some c → isSpaceJS c = false) ∧
  (∀ c, l.getLast? = some c → isSpaceJS c = false)

/-!
## Roll table extractor (src/scripts/content-extractors.js, `RollTableExtractor`)
-/

/-- One result entry pushed by `_parseRollTableBlock` (constant fields kept). -/
structure TableResultEntry where
  entryType : Nat := 0
  weight : Nat := 1
  range : Nat × Nat
  text : List Char
  img : String := "icons/svg/d20-black.svg"
  drawn : Bool := false
deriving Repr, DecidableEq

/-- The roll table object built by `_parseRollTableBlock` (the run-time flags
naming the source PDF are omitted). -/
structure RollTableData where
  name : List Char
  img : String := "icons/svg/d20-grey.svg"
  description : List Char
  formula : List Char
  replacement : Bool := true
  displayRoll : Bool := true
  results : List TableResultEntry
deriving Repr, DecidableEq

/-- Backtracking for `lines[0].match(/(\w[\w\s]+) Table/)`: the largest capture
length `k ≥ 1` such that the text right after position `i + k` (`i` holding the
leading word character) starts with the literal `" Table"`. -/
def tableNameSearchK (line : List Char) (i : Nat) : Nat → Option Nat
  | 0 => none
  | k + 1 =>
    if strStarts (lit " Table") (line.drop (i + 1 + (k + 1))) then some (k + 1)
    else tableNameSearchK line i k

/-- `lines[0].match(/(\w[\w\s]+) Table/)`: leftmost position with a word
character followed by a greedy `[\w\s]+` run that backtracks until the literal
`" Table"` follows. -/
def tableNameMatch (line : List Char) : Option (List Char) :=
  (scanFirst (fun i =>
      match line.drop i with
      | [] => none
      | c :: rest =>
        if isWordChar c then
          let run := rest.takeWhile isWordOrSpace
          match tableNameSearchK line i run.length with
          | some k => some (jsSubstring line i (i + 1 + k))
          | none => none
        else none) (line.length + 1) 0).map Prod.snd

/-- `lines[1].match(/(d\d+|\d+d\d+)/)`: at each position the alternatives are
tried left to right, each with greedy digit runs. -/
def dieTypeMatch (line : List Char) : Option (List Char) :=
  (scanFirst (fun i =>
      match line.drop i with
      | [] => none
      | c :: rest =>
        if c = 'd' then
          let ds := rest.takeWhile Char.isDigit
          if ds = [] then none else some ('d' :: ds)
        else if c.isDigit then
          let ds := (c :: rest).takeWhile Char.isDigit
          match (c :: rest).dropWhile Char.isDigit with
          | 'd' :: r2 =>
            let es := r2.takeWhile Char.isDigit
            if es = [] then none else some (ds ++ 'd' :: es)
          | _ => none
        else none) (line.length + 1) 0).map Prod.snd

/-- `line.match(/(\d+)(?:-(\d+))? (.+)/)`: greedy digit run, optional
`-digits` group (tried with the group first, then without), a literal space and
a non-empty `.+` capture (which cannot cross a newline).  Returns
`(start digits, optional end digits, result text)`. -/
def tableEntryMatch (line : List Char) : Option (List Char × Option (List Char) × List Char) :=
  (scanFirst (fun i =>
      match line.drop i with
      | [] => none
      | c :: _ =>
        if c.isDigit then
          let rest := line.drop i
          let d1 := rest.takeWhile Char.isDigit
          let r1 := rest.dropWhile Char.isDigit
          let without : Option (List Char × Option (List Char) × List Char) :=
            match r1 with
            | ' ' :: tail =>
              let cap := tail.takeWhile (· != '\n')
              if cap = [] then none else some (d1, none, cap)
            | _ => none
          match r1 with
          | '-' :: r2 =>
            let d2 := r2.takeWhile Char.isDigit
            if d2 = [] then without
            else
              match r2.dropWhile Char.isDigit with
              | ' ' :: tail =>
                let cap := tail.takeWhile (· != '\n')
                if cap = [] then without else some (d1, some d2, cap)
              | _ => without
          | _ => without
        else none) (line.length + 1) 0).map Prod.snd

/-- `RollTableExtractor._parseRollTableBlock`: reject blocks of fewer than four
lines; read the table name (default `'Unknown Table'`) and die type (default
`'d20'`); then for every matching body line emit one single-face result entry
per integer of the inclusive range, all sharing the line's result text. -/
def parseRollTableBlock (block : List Char) : Option RollTableData :=
  let lines := block.splitOn '\n'
  if lines.length < 4 then none
  else
    let name :=
      match tableNameMatch (lines.getD 0 []) with
      | some cap => trimJS cap
      | none => lit "Unknown Table"
    let dieType :=
      match dieTypeMatch (lines.getD 1 []) with
      | some d => d
      | none => lit "d20"
    let results := (lines.drop 2).foldl (fun acc l =>
      let line := trimJS l
      if line = [] then acc
      else
        match tableEntryMatch line with
        | some (d1, od2, txt) =>
          let rangeStart := natOfDigits d1
          let rangeEnd := match od2 with | some d2 => natOfDigits d2 | none => rangeStart
          acc ++ (List.range' rangeStart (rangeEnd + 1 - rangeStart)).map
            (fun r => ({ range := (r, r), text := txt } : TableResultEntry))
        | none => acc) []
    some { name := name, description := List.intercalate ['\n'] (lines.drop 2),
           formula := dieType, results := results }

/-- The roll-table block of the specification's expansion example. -/
def c5Block : List Char :=
  lit "Wandering Monsters Table\nd6\n1-2 Goblin scout\n3 Ogre\n4-6 Nothing"

/-!
## Spell extractor (src/unnamed/part_001, `SpellExtractor`)
-/

/-- `levelLine.match(/(\w+)-level (\w+)/)`: leftmost position with a greedy
`\w+` run followed by the literal `"-level "` and a non-empty `\w+` run. -/
def spellLevelMatch (line : List Char) : Option (List Char × List Char) :=
  (scanFirst (fun i =>
      match line.drop i with
      | [] => none
      | c :: _ =>
        if isWordChar c then
          let rest := line.drop i
          let r := rest.takeWhile isWordChar
          let after := rest.dropWhile isWordChar
          if strStarts (lit "-level ") after then
            let s := (after.drop 7).takeWhile isWordChar
            if s = [] then none else some (r, s)
          else none
        else none) (line.length + 1) 0).map Prod.snd

/-- `block.match(/Label: (.*?)\n/)`: leftmost occurrence of the label after
which some newline follows; the lazy capture is everything up to that first
newline (possibly empty). -/
def matchColonField (label cs : List Char) : Option (List Char) :=
  (scanFirst (fun i =>
      if strStarts label (cs.drop i) then
        let rest := cs.drop (i + label.length)
        let cap := rest.takeWhile (· != '\n')
        if cap.length < rest.length then some cap else none
      else none) (cs.length + 1) 0).map Prod.snd

/-- Structured record built by `SpellExtractor._parseSpellBlock`.  The `level`
field is an `Option Int` where `none` models the JS value `NaN`. -/
structure SpellRecord where
  name : List Char
  level : Option Int
  school : List Char
  castingTime : List Char
  spellRange : List Char
  components : List Char
  duration : List Char
  description : List Char
deriving Repr, DecidableEq

/-- `SpellExtractor._parseSpellBlock`.  In the source the level capture is fed
to `parseInt` inside a `try`/`catch` whose handler assigns the default 0; since
`parseInt` never throws, that handler is dead code and a non-numeric capture
leaves `level = NaN` (modelled as `none`). -/
def parseSpellBlock (block : List Char) : Option SpellRecord :=
  let lines := block.splitOn '\n'
  if lines.length < 5 then none
  else
    let name := trimJS (lines.getD 0 [])
    let levelLine := trimJS (lines.getD 1 [])
    let levelSchool : Option Int × List Char :=
      match spellLevelMatch levelLine with
      | some (lv, sc) => (jsParseInt lv, sc)
      | none => (some 0, lit "unknown")
    let castingTime :=
      match matchColonField (lit "Casting Time: ") block with
      | some cap => trimJS cap
      | none => lit "1 action"
    let spellRange :=
      match matchColonField (lit "Range: ") block with
      | some cap => trimJS cap
      | none => lit "Self"
    let components :=
      match matchColonField (lit "Components: ") block with
      | some cap => trimJS cap
      | none => lit "V, S"
    let duration :=
      match matchColonField (lit "Duration: ") block with
      | some cap => trimJS cap
      | none => lit "Instantaneous"
    let description :=
      match indexOfFrom (lit "\n\n") block 0 with
      | some d => trimJS (block.drop d)
      | none => []
    some { name := name, level := levelSchool.1, school := levelSchool.2,
           castingTime := castingTime, spellRange := spellRange,
           components := components, duration := duration, description := description }

/-- A spell block whose level text is a word rather than a number. -/
def c8Block : List Char :=
  lit "Fireball\nThird-level evocation\nCasting Time: 1 action\nRange: 150 feet\nDuration: Instantaneous"

/-!
## Page-range text extraction (src/unnamed/part_001, `PDFExtractor.extractText`)
-/

/-- A page range; the source's `end` field is named `stop` here because `end`
is a Lean keyword. -/
structure PageRangeSpec where
  start : Nat
  stop : Nat
deriving Repr, DecidableEq

/-- `PDFExtractor.extractText`: the pages are given as their already decoded
per-page strings (the source joins each page's text items with spaces before
appending; that join happens upstream of this model).  `pageRange?.start || 1`
and `pageRange?.end ? Math.min(pageRange.end, numPages) : numPages` follow the
JS falsiness of 0.  The page loop simply does not run when the effective end
page is below the start page; no page-range validation is performed. -/
def extractText (pages : List (List Char)) (range : Option PageRangeSpec) : List Char :=
  let numPages := pages.length
  let startPage :=
    match range with
    | some r => if r.start = 0 then 1 else r.start
    | none => 1
  let endPage :=
    match range with
    | some r => if r.stop = 0 then numPages else min r.stop numPages
    | none => numPages
  (List.range' startPage (endPage + 1 - startPage)).foldl
    (fun acc i => acc ++ pages.getD (i - 1) [] ++ ['\n']) []

/-!
## Page-range parsing (src/scripts/pdf-utils.js, `parsePageRange`)
-/

/-- What remains of a page-range string after the leading digit run and the
whitespace that follows it: the place where the regex's dash must sit. -/
def prTail (s : List Char) : List Char :=
  (s.dropWhile Char.isDigit).dropWhile isSpaceJS

/-- What remains after the dash and the whitespace that follows it: the place
where the second digit run must sit. -/
def prAfterDash (s : List Char) : List Char :=
  ((prTail s).tail).dropWhile isSpaceJS

/-- The anchored regex `^(\d+)(?:\s*-\s*(\d+))?$` of `parsePageRange`:
a maximal leading digit run, then either the end of the string, or optional
whitespace, a dash, optional whitespace and a maximal digit run ending the
string.  Returns the two captured numbers (equal for a single number). -/
def pageRangeRegexMatch (s : List Char) : Option (Nat × Nat) :=
  if s.takeWhile Char.isDigit = [] then none
  else if s.dropWhile Char.isDigit = [] then
    some (natOfDigits (s.takeWhile Char.isDigit), natOfDigits (s.takeWhile Char.isDigit))
  else if (prTail s).head? = some '-' then
    if (prAfterDash s).takeWhile Char.isDigit = [] then none
    else if (prAfterDash s).dropWhile Char.isDigit = [] then
      some (natOfDigits (s.takeWhile Char.isDigit),
            natOfDigits ((prAfterDash s).takeWhile Char.isDigit))
    else none
  else none

/-- `parsePageRange`: null for an empty or whitespace-only string, for a string
the regex does not match, and for `start < 1` or `end < start`; otherwise the
`{start, end}` pair.  (The source's `isNaN` tests can never fire because the
captures are pure digit runs.) -/
def parsePageRange (s : List Char) : Option (Nat × Nat) :=
  if trimJS s = [] then none
  else
    (pageRangeRegexMatch s).bind fun ab =>
      if ab.1 < 1 ∨ ab.2 < ab.1 then none else some ab

/-- Declarative shape of a page-range string as stated by the claim: either a
single non-empty run of decimal digits `N` (start = end = N), or digits, then
optional whitespace, a dash, optional whitespace and digits. -/
def PageRangeForm (s : List Char) (a b : Nat) : Prop :=
  (s ≠ [] ∧ (∀ c ∈ s, c.isDigit = true) ∧ a = natOfDigits s ∧ b = a) ∨
  (∃ d1 w1 w2 d2, s = d1 ++ (w1 ++ '-' :: (w2 ++ d2)) ∧
    d1 ≠ [] ∧ d2 ≠ [] ∧
    (∀ c ∈ d1, c.isDigit = true) ∧ (∀ c ∈ d2, c.isDigit = true) ∧
    (∀ c ∈ w1, isSpaceJS c = true) ∧ (∀ c ∈ w2, isSpaceJS c = true) ∧
    a = natOfDigits d1 ∧ b = natOfDigits d2)

/-!
## System profile registry (src/scripts/system-configs.js)
-/

/-- A system configuration: id, display name, content types
(`(id, label, enabled)`), extraction patterns (category id to a list of
`(slot name, regex source)` pairs) and entity mappings. -/
structure SystemConfig where
  id : String
  name : String
  contentTypes : List (String × String × Bool)
  extractionPatterns : List (String × List (String × String))
  entityMappings : List (String × String)
deriving Repr, DecidableEq

/-- The content types of the base `SystemConfig` constructor. -/
def baseContentTypes (allEnabled : Bool) : List (String × String × Bool) :=
  [("monsters", "Monsters/NPCs", true),
   ("spells", "Spells", true),
   ("items", "Items", true),
   ("adventures", "Adventures", true),
   ("glossary", "Glossary/Index", true),
   ("backgrounds", "Backgrounds", allEnabled),
   ("races", "Species/Races", allEnabled),
   ("traits", "Traits", allEnabled),
   ("feats", "Feats", allEnabled),
   ("rolltables", "Roll Tables", allEnabled)]

/-- The base `SystemConfig` (the generic fallback profile). -/
def baseSystemConfig : SystemConfig where
  id := "base"
  name := "Base System"
  contentTypes := baseContentTypes false
  extractionPatterns :=
    [("monsters",
      [("namePattern", "^([A-Z][\\w\\s]+)$"),
       ("statBlockStart", "^(STR|DEX|CON|INT|WIS|CHA|Armor Class|Hit Points|Speed)"),
       ("statBlockEnd", "(Actions|Legendary Actions|Lair Actions)")]),
     ("spells",
      [("namePattern", "^([A-Z][\\w\\s]+)$"),
       ("levelPattern", "^(\\d)(?:st|nd|rd|th) level"),
       ("castingTimePattern", "Casting Time: ([\\w\\s]+)"),
       ("rangePattern", "Range: ([\\w\\s]+)")])]
  entityMappings :=
    [("monsters", "Actor"), ("spells", "Item"), ("items", "Item"),
     ("adventures", "JournalEntry"), ("glossary", "JournalEntry")]

/-- `DnD5eConfig`. -/
def dnd5eConfig : SystemConfig where
  id := "dnd5e"
  name := "Dungeons & Dragons 5e"
  contentTypes := baseContentTypes true
  extractionPatterns :=
    [("monsters",
      [("namePattern", "^([A-Z][\\w\\s]+)$"),
       ("sizeTypePattern", "^(Tiny|Small|Medium|Large|Huge|Gargantuan) (\\w+)"),
       ("acPattern", "Armor Class (\\d+)"),
       ("hpPattern", "Hit Points (\\d+) \\((\\d+)d(\\d+)(?:\\s?\\+\\s?(\\d+))?\\)"),
       ("statBlockStart", "^STR\\s+DEX\\s+CON\\s+INT\\s+WIS\\s+CHA$"),
       ("statBlockEnd", "^Actions")]),
     ("spells",
      [("namePattern", "^([A-Z][\\w\\s]+)$"),
       ("levelPattern", "^(\\d)(?:st|nd|rd|th)-level (\\w+)"),
       ("schoolPattern", "^(?:\\d(?:st|nd|rd|th)-level )?(\\w+)"),
       ("castingTimePattern", "Casting Time: ([\\w\\s]+)"),
       ("rangePattern", "Range: ([\\w\\s]+)"),
       ("componentsPattern", "Components: ([\\w\\s,]+)"),
       ("durationPattern", "Duration: ([\\w\\s]+)")]),
     ("feats",
      [("namePattern", "^([A-Z][\\w\\s]+)$"),
       ("prerequisitePattern", "Prerequisite: ([\\w\\s,]+)")])]
  entityMappings :=
    [("monsters", "Actor"), ("spells", "Item"), ("items", "Item"),
     ("adventures", "JournalEntry"), ("glossary", "JournalEntry")]

/-- `Pathfinder2eConfig`. -/
def pf2eConfig : SystemConfig where
  id := "pf2e"
  name := "Pathfinder 2nd Edition"
  contentTypes := baseContentTypes true
  extractionPatterns :=
    [("monsters",
      [("namePattern", "^([A-Z][\\w\\s]+)\\s+Creature (\\d+)"),
       ("traitsPattern", "^((?:[A-Z][\\w]+ )+)$"),
       ("perceptionPattern", "Perception \\+([\\d]+)"),
       ("statBlockStart", "^STR\\s+DEX\\s+CON\\s+INT\\s+WIS\\s+CHA$"),
       ("statBlockEnd", "^Actions")]),
     ("spells",
      [("namePattern", "^([A-Z][\\w\\s]+)\\s+Spell (\\d+)"),
       ("traitsPattern", "^((?:[A-Z][\\w]+ )+)$"),
       ("castingTimePattern", "Cast (?:\\([^)]+\\) )?([\\w\\s]+)"),
       ("rangePattern", "Range ([\\w\\s]+)"),
       ("targetsPattern", "Targets ([\\w\\s]+)"),
       ("durationPattern", "Duration ([\\w\\s]+)")])]
  entityMappings :=
    [("monsters", "Actor"), ("spells", "Item"), ("items", "Item"),
     ("adventures", "JournalEntry"), ("glossary", "JournalEntry")]

/-- `WorldOfDarknessConfig`. -/
def wodConfig : SystemConfig where
  id := "wod"
  name := "World of Darkness"
  contentTypes :=
    [("characters", "Characters/NPCs", true),
     ("powers", "Powers/Disciplines", true),
     ("items", "Items", true),
     ("lore", "Lore", true),
     ("locations", "Locations", true),
     ("rolltables", "Roll Tables", true)]
  extractionPatterns :=
    [("characters",
      [("namePattern", "^([A-Z][\\w\\s]+)$"),
       ("attributesPattern", "Attributes: ([\\w\\s,]+)"),
       ("skillsPattern", "Skills: ([\\w\\s,]+)"),
       ("powersPattern", "(?:Disciplines|Powers): ([\\w\\s,]+)")]),
     ("powers",
      [("namePattern", "^([A-Z][\\w\\s]+)\\s+\\(([\\w\\s]+)\\)$"),
       ("costPattern", "Cost: ([\\w\\s]+)"),
       ("dicePoolPattern", "Dice Pool: ([\\w\\s+]+)"),
       ("descriptionStart", "Description:")])]
  entityMappings :=
    [("characters", "Actor"), ("powers", "Item"), ("items", "Item"),
     ("lore", "JournalEntry"), ("locations", "Scene")]

/-- `StarTrekConfig`. -/
def startrekConfig : SystemConfig where
  id := "startrek"
  name := "Star Trek Adventures"
  contentTypes :=
    [("characters", "Characters/NPCs", true),
     ("starships", "Starships", true),
     ("equipment", "Equipment", true),
     ("talents", "Talents", true),
     ("species", "Species", true),
     ("locations", "Locations", true),
     ("rolltables", "Roll Tables", true)]
  extractionPatterns :=
    [("characters",
      [("namePattern", "^([A-Z][\\w\\s]+)$"),
       ("attributesPattern", "ATTRIBUTES\\s+([\\w\\s\\d]+)DISCIPLINES"),
       ("disciplinesPattern", "DISCIPLINES\\s+([\\w\\s\\d]+)VALUES"),
       ("valuesPattern", "VALUES\\s+([\\w\\s\\d]+)")]),
     ("starships",
      [("namePattern", "^([A-Z][\\w\\s-]+)$"),
       ("servicePattern", "Service Entry Date: ([\\w\\s\\d]+)"),
       ("systemsPattern", "SYSTEMS\\s+([\\w\\s\\d]+)DEPARTMENTS"),
       ("departmentsPattern", "DEPARTMENTS\\s+([\\w\\s\\d]+)")])]
  entityMappings :=
    [("characters", "Actor"), ("starships", "Actor"), ("equipment", "Item"),
     ("talents", "Item"), ("species", "JournalEntry"), ("locations", "Scene")]

/-- `CityOfMistConfig`. -/
def cityofmistConfig : SystemConfig where
  id := "cityofmist"
  name := "City of Mist"
  contentTypes :=
    [("characters", "Characters", true),
     ("moves", "Moves", true),
     ("themes", "Themes", true),
     ("tags", "Tags", true),
     ("locations", "Locations", true),
     ("cases", "Cases", true),
     ("rolltables", "Roll Tables", true)]
  extractionPatterns :=
    [("characters",
      [("namePattern", "^([A-Z][\\w\\s]+)$"),
       ("themesPattern", "Themes:\\s+([\\w\\s,]+)"),
       ("statusPattern", "Status:\\s+([\\w\\s,]+)")]),
     ("moves",
      [("namePattern", "^([A-Z][\\w\\s]+)$"),
       ("triggerPattern", "Trigger:\\s+([\\w\\s,\\.]+)"),
       ("effectPattern", "Effect:\\s+([\\w\\s,\\.]+)")])]
  entityMappings :=
    [("characters", "Actor"), ("moves", "Item"), ("themes", "Item"),
     ("tags", "Item"), ("locations", "Scene"), ("cases", "JournalEntry")]

/-- `getAvailableSystemConfigs`. -/
def getAvailableSystemConfigs : List SystemConfig :=
  [dnd5eConfig, pf2eConfig, wodConfig, startrekConfig, cityofmistConfig]

/-- `getSystemConfigById`: the matching config, or a fresh base config. -/
def getSystemConfigById (id : String) : SystemConfig :=
  (getAvailableSystemConfigs.find? (fun c => c.id == id)).getD baseSystemConfig

/-- `SystemConfig.getExtractionPatterns`: the category's pattern set, or the
empty object. -/
def getExtractionPatterns (cfg : SystemConfig) (contentType : String) : List (String × String) :=
  ((cfg.extractionPatterns.find? (fun p => p.1 == contentType)).map Prod.snd).getD []

/-!
## Dispatcher (src/unnamed/part_000, `UnifiedPDFProcessor`)
-/

/-- The content type ids handled by some non-default case of the
`_extractContentByType` switch. -/
def supportedContentTypes : List String :=
  ["monsters", "characters", "spells", "powers", "items", "equipment",
   "adventures", "lore", "cases", "glossary", "races", "species",
   "backgrounds", "traits", "tags", "feats", "talents", "moves",
   "rolltables", "starships", "locations", "themes"]

/-- `UnifiedPDFProcessor._extractContentByType`: the switch over the content
type.  The creature branch delegates to `_extractCreatures` (passed in as a
parameter, so the statement holds for any realization of it); every other
recognized branch delegates to a stub that returns `[]`; the default branch
logs a warning (the boolean component) and returns `[]`.  No branch throws. -/
def extractContentByType {τ π α : Type} (extractCreatures : τ → π → List α)
    (contentType : String) (text : τ) (patterns : π) : List α × Bool :=
  if contentType = "monsters" ∨ contentType = "characters" then
    (extractCreatures text patterns, false)
  else if contentType = "spells" ∨ contentType = "powers" then ([], false)
  else if contentType = "items" ∨ contentType = "equipment" then ([], false)
  else if contentType = "adventures" ∨ contentType = "lore" ∨ contentType = "cases" then ([], false)
  else if contentType = "glossary" then ([], false)
  else if contentType = "races" ∨ contentType = "species" then ([], false)
  else if contentType = "backgrounds" then ([], false)
  else if contentType = "traits" ∨ contentType = "tags" then ([], false)
  else if contentType = "feats" ∨ contentType = "talents" ∨ contentType = "moves" then ([], false)
  else if contentType = "rolltables" then ([], false)
  else if contentType = "starships" then ([], false)
  else if contentType = "locations" then ([], false)
  else if contentType = "themes" then ([], false)
  else ([], true)

/-- Whether an `Except` computation completed without an exception. -/
def isOkE {ε α : Type} : Except ε α → Bool
  | .ok _ => true
  | .error _ => false

/-- The per-category loop of `UnifiedPDFProcessor.process`: each requested
content type is processed in order and its result list is stored under its id.
The whole loop runs inside a single `try` whose `catch` logs and **re-throws**,
so an exception thrown while processing one category (modelled by the
per-category function returning `.error`) propagates out of `process` and the
remaining categories are not processed. -/
def processLoop {α : Type} (extract : String → Except String α) :
    List String → Except String (List (String × α))
  | [] => .ok []
  | ct :: rest =>
    match extract ct with
    | .error e => .error e
    | .ok r =>
      match processLoop extract rest with
      | .error e => .error e
      | .ok rs => .ok ((ct, r) :: rs)

/-- A per-category extraction function whose `spells` pattern set throws during
parsing and whose other categories each produce one record. -/
def c3Extract : String → Except String (List Nat) := fun ct =>
  if ct = "spells" then .error "invalid pattern" else .ok [1]

/-!
## Server API (src/scripts/server-api.js)
-/

/-- `path.replace(/^\//, '')` and the handlers' initial `startsWith('/')`
normalization: remove one leading slash. -/
def stripLeadSlash (p : List Char) : List Char :=
  match p with
  | '/' :: t => t
  | _ => p

/-- `isValidPath`: reject paths containing `".."`; after removing one leading
slash (`normalizedPath` in the source, inlined here) the path must start with
`"data/"` or equal `"data"`; empty or whitespace-only paths are rejected. -/
def isValidPath (p : List Char) : Bool :=
  if strHas (lit "..") p then false
  else if ¬ (strStarts (lit "data/") (stripLeadSlash p) ||
      stripLeadSlash p == lit "data") then false
  else if p == [] || trimJS p == [] then false
  else true

/-- Outcome of the validation phase of the browse/fetch request handlers; the
successful branch hands the normalized path to the external `FilePicker`. -/
inductive ApiOutcome where
  | invalidPath
  | notPdf
  | proceed (path : List Char)
deriving Repr, DecidableEq

/-- The `data.path || 'data'` default of `handleBrowseRequest` (the empty
string is falsy and also defaults). -/
def browseDefaultPath (dataPath : Option (List Char)) : List Char :=
  match dataPath with
  | none => lit "data"
  | some s => if s = [] then lit "data" else s

/-- `handleBrowseRequest` up to its `FilePicker` call: default the path to
`'data'`, strip one leading slash, reject invalid paths, then reject non-PDF
files. -/
def handleBrowseRequest (dataPath : Option (List Char)) : ApiOutcome :=
  if ¬ isValidPath (stripLeadSlash (browseDefaultPath dataPath)) then .invalidPath
  else if (stripLeadSlash (browseDefaultPath dataPath)).contains '.' &&
      ¬ strEnds (lit ".pdf") (toLowerJS (stripLeadSlash (browseDefaultPath dataPath))) then
    .notPdf
  else .proceed (stripLeadSlash (browseDefaultPath dataPath))

/-- `handleFetchRequest` up to its `FilePicker` call. -/
def handleFetchRequest (dataPath : List Char) : ApiOutcome :=
  if ¬ isValidPath (stripLeadSlash dataPath) then .invalidPath
  else if (stripLeadSlash dataPath).contains '.' &&
      ¬ strEnds (lit ".pdf") (toLowerJS (stripLeadSlash dataPath)) then .notPdf
  else .proceed (stripLeadSlash dataPath)

/-!
## Helper lemmas
-/

theorem scanFirst_some {α : Type} (f : Nat → Option α) :
    ∀ fuel i j a, scanFirst f fuel i = some (j, a) → i ≤ j ∧ f j = some a := by
  intro fuel
  induction fuel with
  | zero => intro i j a h; simp [scanFirst] at h
  | succ n ih =>
    intro i j a h
    unfold scanFirst at h
    cases hf : f i with
    | some b =>
      rw [hf] at h
      cases h
      exact ⟨le_refl _, hf⟩
    | none =>
      rw [hf] at h
      obtain ⟨hle, heq⟩ := ih (i + 1) j a h
      exact ⟨by omega, heq⟩

theorem matchTraitAt_bound (cs : List Char) (i e : Nat)
    (h : matchTraitAt cs i = some e) : i + 9 ≤ e := by
  unfold matchTraitAt at h
  split at h
  · split at h
    · split at h
      · cases h; omega
      · cases h
    · cases h
  · cases h

theorem findTraitFrom_some (cs : List Char) (pos s e : Nat)
    (h : findTraitFrom cs pos = some (s, e)) : pos ≤ s ∧ pos + 9 ≤ e := by
  obtain ⟨hle, hm⟩ := scanFirst_some (matchTraitAt cs) _ pos s e h
  have := matchTraitAt_bound cs s e hm
  exact ⟨hle, by omega⟩

theorem traitBlocksLoop_start_le (cs : List Char) :
    ∀ fuel pos, ∀ q ∈ traitBlocksLoop cs fuel pos, pos ≤ q.1 := by
  intro fuel
  induction fuel with
  | zero => intro pos q hq; simp [traitBlocksLoop] at hq
  | succ n ih =>
    intro pos q hq
    unfold traitBlocksLoop at hq
    rcases hf : findTraitFrom cs pos with _ | ⟨s, e⟩
    · rw [hf] at hq; simp at hq
    · rw [hf] at hq
      obtain ⟨h1, h2⟩ := findTraitFrom_some cs pos s e hf
      rcases List.mem_cons.mp hq with rfl | hmem
      · exact h1
      · have := ih e q hmem; omega

theorem traitBlocksLoop_pairwise (cs : List Char) :
    ∀ fuel pos, (traitBlocksLoop cs fuel pos).Pairwise fun a b => a.1 < b.1 := by
  intro fuel
  induction fuel with
  | zero => intro pos; simp [traitBlocksLoop]
  | succ n ih =>
    intro pos
    unfold traitBlocksLoop
    rcases hf : findTraitFrom cs pos with _ | ⟨s, e⟩
    · simp
    · obtain ⟨h1, h2⟩ := findTraitFrom_some cs pos s e hf
      have hse : s < e := by
        obtain ⟨_, hm⟩ := scanFirst_some (matchTraitAt cs) _ pos s e hf
        have := matchTraitAt_bound cs s e hm; omega
      refine List.pairwise_cons.mpr ⟨?_, ih e⟩
      intro q hq
      have := traitBlocksLoop_start_le cs n e q hq
      simpa using by omega

theorem dropWhile_head_false {p : Char → Bool} {c : Char} {t : List Char} :
    ∀ l : List Char, l.dropWhile p = c :: t → p c = false := by
  intro l
  induction l with
  | nil => intro h; simp [List.dropWhile] at h
  | cons a l ih =>
    intro h
    rw [List.dropWhile_cons] at h
    split at h
    · exact ih h
    · cases h; simp_all

theorem dropWhile_eq_self_of_head {p : Char → Bool} {l : List Char}
    (h : ∀ c, l.head? = some c → p c = false) : l.dropWhile p = l := by
  cases l with
  | nil => rfl
  | cons c t => rw [List.dropWhile_cons, if_neg (by simp [h c rfl])]

theorem takeWhile_dropWhile_append {p : Char → Bool} :
    ∀ (l₁ l₂ : List Char), (∀ c ∈ l₁, p c = true) →
      (∀ c, l₂.head? = some c → p c = false) →
      (l₁ ++ l₂).takeWhile p = l₁ ∧ (l₁ ++ l₂).dropWhile p = l₂ := by
  intro l₁
  induction l₁ with
  | nil =>
    intro l₂ _ h2
    constructor
    · rw [List.nil_append]
      cases l₂ with
      | nil => rfl
      | cons c t => rw [List.takeWhile_cons, if_neg (by simp [h2 c rfl])]
    · rw [List.nil_append]
      exact dropWhile_eq_self_of_head h2
  | cons a l ih =>
    intro l₂ h1 h2
    have ha : p a = true := h1 a (by simp)
    obtain ⟨iht, ihd⟩ := ih l₂ (fun c hc => h1 c (by simp [hc])) h2
    constructor
    · rw [List.cons_append, List.takeWhile_cons, if_pos ha, iht]
    · rw [List.cons_append, List.dropWhile_cons, if_pos ha, ihd]

theorem isDigit_of_not_spaceJS {c : Char} (h : isSpaceJS c = true) : c.isDigit = false := by
  simp only [isSpaceJS, Bool.or_eq_true, beq_iff_eq] at h
  rcases h with ((((rfl | rfl) | rfl) | rfl) | rfl) | rfl <;> decide

theorem spaceJS_of_not_digit {c : Char} (h : c.isDigit = true) : isSpaceJS c = false := by
  cases hs : isSpaceJS c
  · rfl
  · rw [isDigit_of_not_spaceJS hs] at h; cases h

theorem trimJS_eq_self {l : List Char}
    (h1 : ∀ c, l.head? = some c → isSpaceJS c = false)
    (h2 : ∀ c, l.getLast? = some c → isSpaceJS c = false) : trimJS l = l := by
  unfold trimJS
  rw [dropWhile_eq_self_of_head h1,
    dropWhile_eq_self_of_head (by intro c hc; exact h2 c (by rwa [List.head?_reverse] at hc)),
    List.reverse_reverse]

theorem head_dropWhile_false {p : Char → Bool} (x : List Char) :
    ∀ c, (x.dropWhile p).head? = some c → p c = false := by
  intro c hc
  rcases hx : x.dropWhile p with _ | ⟨d, t⟩
  · rw [hx] at hc; cases hc
  · rw [hx] at hc; cases hc; exact dropWhile_head_false x hx

theorem trimJS_noOuterSpace (l : List Char) : noOuterSpace (trimJS l) := by
  constructor
  · intro c hc
    unfold trimJS at hc
    rw [List.head?_reverse] at hc
    rcases hm : (l.dropWhile isSpaceJS).reverse.dropWhile isSpaceJS with _ | ⟨d, t⟩
    · rw [hm] at hc; cases hc
    · have hsfx : (d :: t) <:+ (l.dropWhile isSpaceJS).reverse :=
        hm ▸ List.dropWhile_suffix isSpaceJS
      obtain ⟨pre, hpre⟩ := hsfx
      rw [hm] at hc
      have h1 : (d :: t).getLast? = (l.dropWhile isSpaceJS).reverse.getLast? := by
        rw [← hpre]; exact (List.getLast?_append_of_ne_nil _ (by simp)).symm
      rw [h1, List.getLast?_reverse] at hc
      exact head_dropWhile_false l c hc
  · intro c hc
    unfold trimJS at hc
    rw [List.getLast?_reverse] at hc
    exact head_dropWhile_false _ c hc

theorem trimJS_idem (l : List Char) : trimJS (trimJS l) = trimJS l := by
  obtain ⟨h1, h2⟩ := trimJS_noOuterSpace l
  exact trimJS_eq_self h1 h2

/-!
## Claim theorems
-/

/-- C1, counterexample.  On the concrete input `c1Text` (two `"Trait: "`
headers nine characters apart, first double newline at offset 68) the trait
Block Locator emits the spans `[0, 68)` and `[9, 68)`: the second block starts
inside the first, so the output spans are not pairwise disjoint, contradicting
the claim that after emitting `[s, e)` scanning resumes strictly after `e`. -/
theorem c1_overlap_counterexample :
    traitBlockSpans c1Text = [(0, 68), (9, 68)] ∧ ¬ spansDisjoint (traitBlockSpans c1Text) := by
  have h : traitBlockSpans c1Text = [(0, 68), (9, 68)] := by decide
  refine ⟨h, ?_⟩
  rw [h]
  intro hp
  have := (List.pairwise_cons.mp hp).1 (9, 68) (by simp)
  omega

/-- C1, amended.  For every input text, the trait Block Locator's candidate
blocks are ordered by strictly ascending start offset; however, the scan
resumes at the end of the start-pattern regex match rather than strictly after
the emitted block end `e`, so block spans need not be disjoint. -/
theorem c1_blocks_ascending (cs : List Char) :
    (traitBlockSpans cs).Pairwise fun a b => a.1 < b.1 :=
  traitBlocksLoop_pairwise cs (cs.length + 1) 0

/-- C2, counterexample.  On the concrete input `c2Text` the located trait block
has first line `"Trait: "`, whose derived name is empty (the name pattern
cannot match), yet the pipeline emits a record with the placeholder name
`"Unknown Trait"` — which contains `"Unknown"` — instead of rejecting the
block. -/
theorem c2_placeholder_counterexample :
    (extractTraitRecords c2Text).map TraitRecord.name = [lit "Unknown Trait"] ∧
    traitNameMatch ((findTraitBlocks c2Text).headD [] |>.splitOn '\n' |>.headD []) = none ∧
    strHas (lit "Unknown") (lit "Unknown Trait") = true := by
  refine ⟨by decide, by decide, by decide⟩

/-- C2, amended.  Every record emitted by the trait Block Parser has a name
with no leading or trailing whitespace; but a block whose derived name is
empty or unmatched is not rejected: the parser substitutes the placeholder
name `'Unknown Trait'`. -/
theorem c2_name_trimmed (block : List Char) (rec : TraitRecord)
    (h : parseTraitBlock block = some rec) : noOuterSpace rec.name := by
  simp only [parseTraitBlock] at h
  split at h
  · cases h
  · cases hn : traitNameMatch ((block.splitOn '\n').headD []) with
    | some cap =>
      rw [hn] at h
      cases h
      exact trimJS_noOuterSpace cap
    | none =>
      rw [hn] at h
      cases h
      constructor
      · intro c hc; cases hc; decide
      · intro c hc; cases hc; decide

/-- C2, witness for the amended theorem at the concrete block `"Trait: X\ny"`. -/
theorem c2_name_trimmed_witness :
    noOuterSpace (TraitRecord.name { name := lit "X", description := lit "Trait: X\ny" }) :=
  c2_name_trimmed (lit "Trait: X\ny") { name := lit "X", description := lit "Trait: X\ny" }
    (by decide)

/-- C3, counterexample.  With a per-category extraction function whose `spells`
category throws and whose `monsters` category succeeds, the dispatcher loop of
`UnifiedPDFProcessor.process` propagates the exception: the run does not
complete and no results are returned for `monsters`, although `monsters` alone
would have produced its records.  This contradicts the claim that a failing
category is recorded as an empty list while the others still complete. -/
theorem c3_abort_counterexample :
    processLoop c3Extract ["spells", "monsters"] = .error "invalid pattern" ∧
    processLoop c3Extract ["monsters"] = .ok [("monsters", [1])] := ⟨rfl, rfl⟩

/-- C3, amended.  The per-category loop of `process` completes without an
exception exactly when every requested category's extraction completes without
an exception: a single category failure is re-thrown and aborts the whole run
instead of being recorded as an empty result list. -/
theorem c3_error_propagation {α : Type} (extract : String → Except String α)
    (cts : List String) :
    isOkE (processLoop extract cts) = true ↔ ∀ ct ∈ cts, isOkE (extract ct) = true := by
  induction cts with
  | nil => simp [processLoop, isOkE]
  | cons ct rest ih =>
    unfold processLoop
    cases he : extract ct with
    | error e =>
      simp only [isOkE, List.mem_cons]
      constructor
      · intro h; cases h
      · intro h
        have := h ct (Or.inl rfl)
        rw [he] at this
        cases this
    | ok r =>
      cases hr : processLoop extract rest with
      | error e =>
        simp only [isOkE, List.mem_cons]
        constructor
        · intro h; cases h
        · intro h
          have : isOkE (processLoop extract rest) = true := ih.mpr fun c hc => h c (Or.inr hc)
          rw [hr] at this
          cases this
      | ok rs =>
        simp only [isOkE, List.mem_cons, true_iff]
        intro c hc
        rcases hc with rfl | hc
        · rw [he]
        · exact ih.mp (by rw [hr]; rfl) c hc

/-- C4, counterexample.  `extractText` performs no page-range validation: with
three pages and the inverted range `{start := 3, end := 2}` it completes and
returns the empty string, and with a missing (null) range it silently extracts
the whole document — in neither case is an `InputError` raised, contradicting
the claim that an empty or invalid page range fails the run. -/
theorem c4_no_validation_counterexample :
    extractText [lit "alpha", lit "beta", lit "gamma"] (some ⟨3, 2⟩) = [] ∧
    extractText [lit "alpha"] none = lit "alpha\n" := ⟨rfl, rfl⟩

/-- C4, amended.  An inverted page range (end page at least 1 but below the
start page) makes `extractText` return the empty string — the page loop simply
does not execute; a missing range selects the whole document; no error is
raised in either case. -/
theorem c4_inverted_range_empty (pages : List (List Char)) (s e : Nat)
    (h1 : 1 ≤ e) (h2 : e < s) :
    extractText pages (some ⟨s, e⟩) = [] := by
  unfold extractText
  have hs : s ≠ 0 := by omega
  have he : e ≠ 0 := by omega
  simp only [hs, he, if_false]
  have : min e pages.length + 1 - s = 0 := by
    have := Nat.min_le_left e pages.length
    omega
  rw [this, List.range'_zero, List.foldl_nil]

/-- C4, witness for the amended theorem at one page and range 5–3. -/
theorem c4_inverted_range_empty_witness :
    extractText [lit "p1"] (some ⟨5, 3⟩) = [] :=
  c4_inverted_range_empty [lit "p1"] 5 3 (by decide) (by decide)

/-- C5.  Parsing the roll-table block with header lines
`"Wandering Monsters Table"` and `"d6"` and body lines `"1-2 Goblin scout"`,
`"3 Ogre"`, `"4-6 Nothing"` yields exactly six result entries with ranges
`[1,1]` … `[6,6]` and texts `Goblin scout, Goblin scout, Ogre, Nothing,
Nothing, Nothing`: every integer of an inclusive range becomes its own
single-face entry sharing the range's text. -/
theorem c5_roll_table_expansion :
    (parseRollTableBlock c5Block).map (fun t => t.results.map fun en => (en.range, en.text)) =
      some [((1, 1), lit "Goblin scout"), ((2, 2), lit "Goblin scout"),
            ((3, 3), lit "Ogre"), ((4, 4), lit "Nothing"),
            ((5, 5), lit "Nothing"), ((6, 6), lit "Nothing")] := by decide

/-- C8.  Evaluating `_parseSpellBlock` at a block whose level line is
`"Third-level evocation"`: the level pattern matches with capture `"Third"`,
`parseInt` yields `NaN` (modelled `none`) and never throws, so the
`try`/`catch` default of 0 is dead code and the emitted record's level is
`NaN` rather than the claimed default 0. -/
theorem c8_level_nan :
    (parseSpellBlock c8Block).map (fun r => (r.name, r.level)) =
      some (lit "Fireball", none) := by decide

/-- C6, counterexample.  Looking up the unknown id `"nonexistent-system"` does
return the generic base profile, but that fallback profile defines patterns
only for the `monsters` and `spells` categories: its pattern set for `items`
is empty, contradicting the claim that the fallback covers at least the common
categories "such as creatures and items". -/
theorem c6_items_empty_counterexample :
    getSystemConfigById "nonexistent-system" = baseSystemConfig ∧
    getExtractionPatterns (getSystemConfigById "nonexistent-system") "items" = [] := by
  refine ⟨by decide, by decide⟩

/-- C6, amended.  Looking up a system profile by an unknown id never returns
null and never throws: it returns the generic base profile, whose pattern set
is minimal but non-empty — it covers the creature (`monsters`) and `spells`
categories; `items` and the other categories fall back to an empty pattern
set. -/
theorem c6_fallback_profile (id : String)
    (h : ∀ c ∈ getAvailableSystemConfigs, c.id ≠ id) :
    getSystemConfigById id = baseSystemConfig ∧
    getExtractionPatterns (getSystemConfigById id) "monsters" ≠ [] ∧
    getExtractionPatterns (getSystemConfigById id) "spells" ≠ [] := by
  have hfind : getAvailableSystemConfigs.find? (fun c => c.id == id) = none :=
    List.find?_eq_none.mpr fun c hc => by simp [h c hc]
  have hbase : getSystemConfigById id = baseSystemConfig := by
    unfold getSystemConfigById
    rw [hfind]
    rfl
  refine ⟨hbase, ?_, ?_⟩ <;> rw [hbase] <;> decide

/-- C6, witness at the concrete unknown id `"nonexistent-system"`. -/
theorem c6_fallback_profile_witness :
    getSystemConfigById "nonexistent-system" = baseSystemConfig ∧
    getExtractionPatterns (getSystemConfigById "nonexistent-system") "monsters" ≠ [] ∧
    getExtractionPatterns (getSystemConfigById "nonexistent-system") "spells" ≠ [] :=
  c6_fallback_profile "nonexistent-system" (by decide)

/-- C7.  For every content type id not handled by the dispatcher's switch —
and for any realization of the creature sub-extractor — `_extractContentByType`
returns the empty result list together with a logged warning; being a total
function of the switch's branches, it never throws. -/
theorem c7_unknown_category {τ π α : Type} (extractCreatures : τ → π → List α)
    (contentType : String) (text : τ) (patterns : π)
    (h : contentType ∉ supportedContentTypes) :
    extractContentByType extractCreatures contentType text patterns = ([], true) := by
  simp only [supportedContentTypes, List.mem_cons, List.not_mem_nil, or_false] at h
  push_neg at h
  obtain ⟨h1, h2, h3, h4, h5, h6, h7, h8, h9, h10, h11, h12, h13, h14, h15, h16,
    h17, h18, h19, h20, h21, h22⟩ := h
  simp [extractContentByType, h1, h2, h3, h4, h5, h6, h7, h8, h9, h10, h11, h12,
    h13, h14, h15, h16, h17, h18, h19, h20, h21, h22]

/-- C7, witness at the concrete unknown content type `"bogus"`. -/
theorem c7_unknown_category_witness :
    extractContentByType (fun (_ : Unit) (_ : Unit) => ([] : List Unit)) "bogus" () () =
      ([], true) :=
  c7_unknown_category (fun (_ : Unit) (_ : Unit) => ([] : List Unit)) "bogus" () ()
    (by decide)

theorem strStarts_dots_cons_false {c : Char} (t : List Char) (hc : c ≠ '.') :
    strStarts (lit "..") (c :: t) = false := by
  show (c :: t.take 1 == ['.', '.']) = false
  simp [hc]

theorem stripLeadSlash_cons_ne {c : Char} (t : List Char) (hc : c ≠ '/') :
    stripLeadSlash (c :: t) = c :: t := by
  unfold stripLeadSlash
  split
  · rename_i heq; cases heq; exact absurd rfl hc
  · rfl

theorem strHas_stripLeadSlash {p : List Char}
    (h : strHas (lit "..") p = true) : strHas (lit "..") (stripLeadSlash p) = true := by
  cases p with
  | nil => simp [strHas, strStarts, lit] at h
  | cons c t =>
    by_cases hc : c = '/'
    · subst hc
      unfold strHas at h
      rcases Bool.or_eq_true .. |>.mp h with h1 | h2
      · rw [strStarts_dots_cons_false t (by decide)] at h1; cases h1
      · exact h2
    · rw [stripLeadSlash_cons_ne t hc]
      exact h

/-- C10.  `isValidPath` returns true only for paths that do not contain
`".."` and that, after removing one leading slash, start with `"data/"` or
equal `"data"`; and every path containing `".."` is rejected (an invalid-path
response) by both the browse and fetch request handlers. -/
theorem c10_path_validation (p : List Char) :
    (isValidPath p = true →
      strHas (lit "..") p = false ∧
      (strStarts (lit "data/") (stripLeadSlash p) = true ∨ stripLeadSlash p = lit "data")) ∧
    (strHas (lit "..") p = true →
      handleBrowseRequest (some p) = .invalidPath ∧ handleFetchRequest p = .invalidPath) := by
  constructor
  · intro hv
    unfold isValidPath at hv
    by_cases h1 : strHas (lit "..") p = true
    · rw [if_pos h1] at hv; cases hv
    · rw [if_neg h1] at hv
      refine ⟨Bool.not_eq_true _ |>.mp h1, ?_⟩
      by_cases h2 : (strStarts (lit "data/") (stripLeadSlash p) ||
          stripLeadSlash p == lit "data") = true
      · rcases Bool.or_eq_true .. |>.mp h2 with ha | hb
        · exact Or.inl ha
        · exact Or.inr (by simpa using hb)
      · rw [if_pos (by simpa using h2)] at hv; cases hv
  · intro hdots
    have hp : p ≠ [] := by
      intro hnil
      rw [hnil] at hdots
      simp [strHas, strStarts, lit] at hdots
    have hstrip : strHas (lit "..") (stripLeadSlash p) = true := strHas_stripLeadSlash hdots
    have hinvalid : isValidPath (stripLeadSlash p) = false := by
      unfold isValidPath
      rw [if_pos hstrip]
    have hdef : browseDefaultPath (some p) = p := by
      show (if p = [] then lit "data" else p) = p
      rw [if_neg hp]
    constructor
    · unfold handleBrowseRequest
      rw [hdef, if_pos (by rw [hinvalid]; decide)]
    · unfold handleFetchRequest
      rw [if_pos (by rw [hinvalid]; decide)]

theorem mem_of_head?_eq {l : List Char} {c : Char} (h : l.head? = some c) : c ∈ l := by
  cases l with
  | nil => cases h
  | cons x xs => cases h; simp

theorem mem_of_getLast?_eq {l : List Char} {c : Char} (h : l.getLast? = some c) : c ∈ l := by
  rw [← List.head?_reverse] at h
  have := mem_of_head?_eq h
  simpa using this

theorem takeWhile_all_self {p : Char → Bool} {l : List Char}
    (h : ∀ c ∈ l, p c = true) : l.takeWhile p = l ∧ l.dropWhile p = [] := by
  have := takeWhile_dropWhile_append (p := p) l [] h (by intro c hc; cases hc)
  simpa using this

theorem head?_spaces_dash_not_digit {w1 z : List Char}
    (hw : ∀ c ∈ w1, isSpaceJS c = true) :
    ∀ c, (w1 ++ '-' :: z).head? = some c → c.isDigit = false := by
  intro c hc
  cases w1 with
  | nil => rw [List.nil_append] at hc; cases hc; decide
  | cons x xs =>
    rw [List.cons_append] at hc
    cases hc
    exact isDigit_of_not_spaceJS (hw c (by simp))

theorem head?_digits_not_space {d : List Char} (hd : ∀ c ∈ d, c.isDigit = true) :
    ∀ c, d.head? = some c → isSpaceJS c = false :=
  fun c hc => spaceJS_of_not_digit (hd c (mem_of_head?_eq hc))

theorem pageRangeRegexMatch_some_form (s : List Char) (a b : Nat)
    (h : pageRangeRegexMatch s = some (a, b)) : PageRangeForm s a b := by
  unfold pageRangeRegexMatch at h
  by_cases hd1 : s.takeWhile Char.isDigit = []
  · rw [if_pos hd1] at h; cases h
  · rw [if_neg hd1] at h
    by_cases hr1 : s.dropWhile Char.isDigit = []
    · rw [if_pos hr1] at h
      cases h
      have hs : s.takeWhile Char.isDigit = s := by
        have e := List.takeWhile_append_dropWhile Char.isDigit s
        rwa [hr1, List.append_nil] at e
      left
      refine ⟨?_, ?_, ?_, rfl⟩
      · intro hnil; subst hnil; simp at hd1
      · intro c hcmem
        rw [← hs] at hcmem
        exact List.mem_takeWhile_imp hcmem
      · rw [hs]
    · rw [if_neg hr1] at h
      by_cases hdash : (prTail s).head? = some '-'
      · rw [if_pos hdash] at h
        by_cases hd2 : (prAfterDash s).takeWhile Char.isDigit = []
        · rw [if_pos hd2] at h; cases h
        · rw [if_neg hd2] at h
          by_cases hr5 : (prAfterDash s).dropWhile Char.isDigit = []
          · rw [if_pos hr5] at h
            cases h
            right
            have hcons : '-' :: (prTail s).tail = prTail s := by
              cases hpt : prTail s with
              | nil => rw [hpt] at hdash; cases hdash
              | cons x xs => rw [hpt] at hdash; cases hdash; rfl
            refine ⟨s.takeWhile Char.isDigit, (s.dropWhile Char.isDigit).takeWhile isSpaceJS,
              ((prTail s).tail).takeWhile isSpaceJS, (prAfterDash s).takeWhile Char.isDigit,
              ?_, hd1, hd2,
              fun c hc => List.mem_takeWhile_imp hc, fun c hc => List.mem_takeWhile_imp hc,
              fun c hc => List.mem_takeWhile_imp hc, fun c hc => List.mem_takeWhile_imp hc,
              rfl, rfl⟩
            have e4 : (prAfterDash s).takeWhile Char.isDigit = prAfterDash s := by
              have e := List.takeWhile_append_dropWhile Char.isDigit (prAfterDash s)
              rwa [hr5, List.append_nil] at e
            symm
            rw [e4]
            have e3 : ((prTail s).tail).takeWhile isSpaceJS ++ prAfterDash s = (prTail s).tail :=
              List.takeWhile_append_dropWhile isSpaceJS ((prTail s).tail)
            rw [e3, hcons]
            have e2 : (s.dropWhile Char.isDigit).takeWhile isSpaceJS ++ prTail s =
                s.dropWhile Char.isDigit :=
              List.takeWhile_append_dropWhile isSpaceJS (s.dropWhile Char.isDigit)
            rw [e2]
            exact List.takeWhile_append_dropWhile Char.isDigit s
          · rw [if_neg hr5] at h; cases h
      · rw [if_neg hdash] at h; cases h

/-- C9.  `parsePageRange` returns a pair exactly for strings of the regex's
declarative shape — a single decimal number `N` (start = end = N), or digits,
optional whitespace, a dash, optional whitespace, digits — whose numeric
values satisfy `1 ≤ start ≤ end`; every other string (empty, whitespace-only,
malformed, start below 1, end below start) yields null. -/
theorem c9_parsePageRange_characterization (s : List Char) (a b : Nat) :
    parsePageRange s = some (a, b) ↔ PageRangeForm s a b ∧ 1 ≤ a ∧ a ≤ b := by
  constructor
  · intro h
    unfold parsePageRange at h
    by_cases htrim : trimJS s = []
    · rw [if_pos htrim] at h; cases h
    · rw [if_neg htrim] at h
      cases hm : pageRangeRegexMatch s with
      | none => rw [hm] at h; cases h
      | some ab =>
        rw [hm, Option.some_bind] at h
        by_cases hcond : ab.1 < 1 ∨ ab.2 < ab.1
        · rw [if_pos hcond] at h; cases h
        · rw [if_neg hcond] at h
          cases h
          push_neg at hcond
          exact ⟨pageRangeRegexMatch_some_form s a b hm, hcond.1, hcond.2⟩
  · rintro ⟨hform, ha, hab⟩
    rcases hform with ⟨hne, hdig, hA, hB⟩ | ⟨d1, w1, w2, d2, hs, hd1, hd2, hdig1, hdig2, hsp1, hsp2, hA, hB⟩
    · -- single number: s is a non-empty digit run
      obtain ⟨htake, hdrop⟩ := takeWhile_all_self hdig
      have htrim : trimJS s = s :=
        trimJS_eq_self (head?_digits_not_space hdig)
          (fun c hc => spaceJS_of_not_digit (hdig c (mem_of_getLast?_eq hc)))
      unfold parsePageRange
      rw [if_neg (by rw [htrim]; exact hne)]
      unfold pageRangeRegexMatch
      rw [if_neg (by rw [htake]; exact hne), if_pos hdrop, htake, Option.some_bind,
        if_neg (by subst hA hB; omega)]
      subst hA hB; rfl
    · -- dashed range: s = d1 ++ w1 ++ '-' :: (w2 ++ d2)
      have hhead1 : ∀ c, (w1 ++ '-' :: (w2 ++ d2)).head? = some c → c.isDigit = false :=
        head?_spaces_dash_not_digit hsp1
      obtain ⟨htake1, hdrop1⟩ :=
        takeWhile_dropWhile_append (p := Char.isDigit) d1 (w1 ++ '-' :: (w2 ++ d2)) hdig1 hhead1
      have htakeS : s.takeWhile Char.isDigit = d1 := by rw [hs]; exact htake1
      have hdropS : s.dropWhile Char.isDigit = w1 ++ '-' :: (w2 ++ d2) := by
        rw [hs]; exact hdrop1
      obtain ⟨_, hdrop2⟩ :=
        takeWhile_dropWhile_append (p := isSpaceJS) w1 ('-' :: (w2 ++ d2)) hsp1
          (by intro c hc; cases hc; decide)
      have hptail : prTail s = '-' :: (w2 ++ d2) := by
        unfold prTail; rw [hdropS]; exact hdrop2
      obtain ⟨_, hdrop3⟩ :=
        takeWhile_dropWhile_append (p := isSpaceJS) w2 d2 hsp2 (head?_digits_not_space hdig2)
      have hafter : prAfterDash s = d2 := by
        unfold prAfterDash; rw [hptail]; exact hdrop3
      obtain ⟨htake4, hdrop4⟩ := takeWhile_all_self hdig2
      have hsne : s ≠ [] := by
        rw [hs]; cases d1 with
        | nil => exact absurd rfl hd1
        | cons x xs => simp
      have hlastS : s.getLast? = d2.getLast? := by
        rw [hs, show d1 ++ (w1 ++ '-' :: (w2 ++ d2)) = (d1 ++ (w1 ++ '-' :: w2)) ++ d2 by simp]
        exact List.getLast?_append_of_ne_nil _ hd2
      have htrim : trimJS s = s := by
        refine trimJS_eq_self ?_ ?_
        · intro c hc
          rw [hs] at hc
          cases d1 with
          | nil => exact absurd rfl hd1
          | cons x xs =>
            rw [List.cons_append] at hc
            cases hc
            exact spaceJS_of_not_digit (hdig1 c (by simp))
        · intro c hc
          rw [hlastS] at hc
          exact spaceJS_of_not_digit (hdig2 c (mem_of_getLast?_eq hc))
      unfold parsePageRange
      rw [if_neg (by rw [htrim]; exact hsne)]
      unfold pageRangeRegexMatch
      rw [htakeS, hdropS, if_neg hd1, if_neg (by simp), hptail]
      rw [if_pos (show ('-' :: (w2 ++ d2)).head? = some '-' from rfl), hafter,
        if_neg (by rw [htake4]; exact hd2), if_pos hdrop4, htake4,
        Option.some_bind, if_neg (by subst hA hB; omega)]
      subst hA hB; rfl

/-- C10, witness: the theorem applied at the valid path `"data/x.pdf"` (first
part) and at the traversal path `"data/../secret"` (second part). -/
theorem c10_path_validation_witness :
    (strHas (lit "..") (lit "data/x.pdf") = false ∧
      (strStarts (lit "data/") (stripLeadSlash (lit "data/x.pdf")) = true ∨
        stripLeadSlash (lit "data/x.pdf") = lit "data")) ∧
    (handleBrowseRequest (some (lit "data/../secret")) = .invalidPath ∧
      handleFetchRequest (lit "data/../secret") = .invalidPath) :=
  ⟨(c10_path_validation (lit "data/x.pdf")).1 (by decide),
   (c10_path_validation (lit "data/../secret")).2 (by decide)⟩

end PDF2Foundry
